import Mathlib

/-!
Verification of the forgebot-rituals orchestration core against its
natural-language specification.

The development shallowly embeds the two stateful modules the claims are
about:

* `src/EchoBot.js` — the echo resonance engine: a capacity-bounded map of
  decaying echoes with amplification, a per-second decay tick and a cleanup
  sweep.
* `src/weekly_content_scheduler_final.ts` (class `KypriaOrchestrator`) —
  the multi-bot orchestrator: a bot registry, a priority ritual queue with a
  drain loop, event handlers that create rituals directly, an alignment
  aggregate with a capped rolling history, and a convergence state machine.

JavaScript `Map`s are embedded as association lists with `Map.get`/`Map.set`
semantics (`mapGet`/`mapSet`); `Date.now()` and randomly generated ids are
passed in as explicit parameters; JS numbers are embedded as `ℚ` (amplitudes,
alignments) and `ℕ` (millisecond timestamps); the JS counter
`activeEchoes` is `ℤ` since decrements are not clamped at zero.  Calls out to
collaborator bot instances (ScrollBot scroll creation, console logging,
EventEmitter listener dispatch, setTimeout-scheduled completion) do not touch
the data structures the claims quantify over and are not part of the state;
where a function's only observable effect is an emitted event, the embedding
returns a `Bool` flag recording that the event was emitted.

Error paths are modelled explicitly.  The orchestrator's `executeRitual`
dispatches recognized ritual kinds to `performAlignmentConvergence`,
`performBotSynchronization` and `performCodexUpdate`, none of which is
defined anywhere in the class or repository: the call throws a `TypeError`
after the queue shift and the executing mark but before
`activeRituals.add`, and the exception aborts the drain loop (it is caught
only by the orchestration cycle's try/catch).  Likewise
`handleRelicTrigger` dereferences `this.bots.get('scrollbot').instance`
and `this.bots.get('seasonalvoices').instance`, and
`performConvergenceRitual` dereferences the `scrollbot` and `echobot`
entries, before their `activeRituals.add`: when such a key is absent the
dereference throws and no ritual is stored.  Each of these paths is
embedded as the state transition the source actually performs up to the
throw.
-/

namespace ForgeBot

/-- JavaScript `Map.get` over an association list: the value stored at the
first occurrence of the key, if any. -/
def mapGet {κ α : Type} [DecidableEq κ] : List (κ × α) → κ → Option α
  | [], _ => none
  | (k, v) :: rest, key => if k = key then some v else mapGet rest key

/-- JavaScript `Map.set` over an association list: replace the value at the
first occurrence of the key, or append a new entry when the key is absent. -/
def mapSet {κ α : Type} [DecidableEq κ] : List (κ × α) → κ → α → List (κ × α)
  | [], key, value => [(key, value)]
  | (k, v) :: rest, key, value =>
    if k = key then (key, value) :: rest else (k, v) :: mapSet rest key value

/-! ## EchoBot (src/EchoBot.js) -/

/-- A resonance pattern as registered in `setupResonancePatterns` or returned
by `getDefaultPattern`. -/
structure ResonancePattern where
  frequency : String
  amplitude : ℚ
  decay : ℕ
  harmonics : List String
deriving DecidableEq

/-- An entry of `echoChambers` as built by `createEcho`.  The opaque `data`
payload is kept as a string.  The `responses` array is never read or written
after construction and is omitted. -/
structure Echo where
  id : String
  type : String
  data : String
  pattern : ResonancePattern
  created : ℕ
  expires : ℕ
  amplitude : ℚ
  resonating : Bool
deriving DecidableEq

/-- The mutable fields of the `EchoBot` class. -/
structure EchoBotState where
  echoChambers : List (String × Echo)
  activeEchoes : ℤ
  maxEchoes : ℤ
deriving DecidableEq

/-- The `EchoBot` constructor: empty chambers, zero active echoes,
`maxEchoes = 10`. -/
def initialEchoBot : EchoBotState :=
  { echoChambers := [], activeEchoes := 0, maxEchoes := 10 }

/-- `setupResonancePatterns`: the four patterns registered at
initialization, keyed by event type. -/
def resonancePatterns (eventType : String) : Option ResonancePattern :=
  if eventType = "relic:deadwood" then
    some { frequency := "low", amplitude := 7/10, decay := 5000,
           harmonics := ["audit", "investigation", "vigilance"] }
  else if eventType = "relic:jester" then
    some { frequency := "chaotic", amplitude := 9/10, decay := 8000,
           harmonics := ["chaos", "comedy", "failure"] }
  else if eventType = "badge:emission" then
    some { frequency := "high", amplitude := 4/5, decay := 3000,
           harmonics := ["achievement", "honor", "recognition"] }
  else if eventType = "shrine:ping" then
    some { frequency := "pure", amplitude := 1, decay := 2000,
           harmonics := ["connection", "response", "acknowledgment"] }
  else none

/-- `getDefaultPattern`: the fallback pattern for event types with no
registered resonance pattern. -/
def getDefaultPattern : ResonancePattern :=
  { frequency := "medium", amplitude := 1/2, decay := 3000, harmonics := [] }

/-- What one `createEcho` call returns and does: the JS return value
(`null` or the echo), the updated state, and whether `generateHarmonics`
was invoked (it is iff the pattern has a non-empty harmonics list). -/
structure CreateEchoResult where
  returned : Option Echo
  state : EchoBotState
  harmonicsGenerated : Bool
deriving DecidableEq

/-- `createEcho(eventType, data)`: rejected (returns `null`, state
untouched) when `activeEchoes >= maxEchoes`; otherwise builds an echo from
the registered pattern (or the default one), stores it and bumps the
counter.  The generated id and `Date.now()` are explicit parameters. -/
def createEcho (s : EchoBotState) (eventType data echoId : String) (now : ℕ) :
    CreateEchoResult :=
  if s.maxEchoes ≤ s.activeEchoes then
    { returned := none, state := s, harmonicsGenerated := false }
  else
    let pattern := (resonancePatterns eventType).getD getDefaultPattern
    let echo : Echo :=
      { id := echoId, type := eventType, data := data, pattern := pattern,
        created := now, expires := now + pattern.decay,
        amplitude := pattern.amplitude, resonating := true }
    { returned := some echo,
      state := { s with
        echoChambers := mapSet s.echoChambers echoId echo,
        activeEchoes := s.activeEchoes + 1 },
      harmonicsGenerated := !pattern.harmonics.isEmpty }

/-- `amplifyEcho(echoId, multiplier)`: when the id is present, multiply the
stored amplitude by the multiplier, capped at 2.0, and emit
`echo:amplified` (the returned `Bool`); when absent, do nothing. -/
def amplifyEcho (s : EchoBotState) (echoId : String) (multiplier : ℚ) :
    EchoBotState × Bool :=
  match mapGet s.echoChambers echoId with
  | some echo =>
    let amplified := { echo with amplitude := min (echo.amplitude * multiplier) 2 }
    ({ s with echoChambers := mapSet s.echoChambers echoId amplified }, true)
  | none => (s, false)

/-- The per-echo body of `updateEchoResonance`: for a resonating,
non-expired echo, recompute the amplitude from the pattern base and the
age, and mark it non-resonating once the amplitude drops to 0.1 or
below. -/
def updateEcho (now : ℕ) (echo : Echo) : Echo :=
  if echo.resonating = true ∧ now < echo.expires then
    let age : ℕ := now - echo.created
    let amp : ℚ := echo.pattern.amplitude * (1 - (age : ℚ) / (echo.pattern.decay : ℚ))
    { echo with amplitude := amp,
                resonating := if amp ≤ 1/10 then false else echo.resonating }
  else echo

/-- `updateEchoResonance`, the decay tick over the whole chamber map. -/
def updateEchoResonance (s : EchoBotState) (now : ℕ) : EchoBotState :=
  { s with echoChambers := s.echoChambers.map fun p => (p.1, updateEcho now p.2) }

/-- The removal condition of `cleanupExpiredEchoes`:
`now >= echo.expires || echo.amplitude <= 0.05`. -/
def echoExpired (now : ℕ) (echo : Echo) : Bool :=
  decide (echo.expires ≤ now) || decide (echo.amplitude ≤ 1/20)

/-- `cleanupExpiredEchoes`: drop every expired entry and decrement the
active counter once per dropped entry. -/
def cleanupExpiredEchoes (s : EchoBotState) (now : ℕ) : EchoBotState :=
  let kept := s.echoChambers.filter fun p => !echoExpired now p.2
  { s with echoChambers := kept,
           activeEchoes :=
             s.activeEchoes - ((s.echoChambers.length : ℤ) - (kept.length : ℤ)) }

/-! ## KypriaOrchestrator (src/weekly_content_scheduler_final.ts) -/

/-- An entry of the orchestrator's `bots` map (the live `instance` field is
a collaborator object and is not part of the embedded state). -/
structure Bot where
  type : String
  status : String
  alignment : ℚ
  lastHeartbeat : ℕ
deriving DecidableEq

/-- A ritual record as built by the event handlers, `queueRitual` and
`performConvergenceRitual`.  Fields a given call site leaves unset are
`Option`s; the opaque `data` payload is kept as a string.  A ritual
literal handed to `queueRitual` carries no `status` in the source; the
embedding writes `"queued"` there, the status the spec's state machine
gives a waiting ritual (`executeRitual` overwrites it on admission). -/
structure Ritual where
  id : String
  type : String
  data : String
  participants : List String
  priority : Option String
  status : String
  queued : Option ℕ
  started : Option ℕ
deriving DecidableEq

/-- The mutable fields of the `KypriaOrchestrator` class.  `activeRituals`
is a JS `Set` of distinct ritual objects, embedded as a list in insertion
order; `lastAlignment` starts as `null` (`none`). -/
structure OrchState where
  bots : List (String × Bot)
  alignmentMatrix : List (ℕ × ℚ)
  orchestrationState : String
  convergenceThreshold : ℚ
  lastAlignment : Option ℚ
  ritualQueue : List Ritual
  activeRituals : List Ritual
deriving DecidableEq

/-- The orchestrator after the constructor and `initializeBotComponents`:
four active bots with their initial alignments, threshold 0.85, state
`idle`.  `Date.now()` at initialization is the parameter. -/
def initialOrchestrator (now : ℕ) : OrchState :=
  { bots :=
      [("forgebot",
        { type := "shrine", status := "active", alignment := 9/10, lastHeartbeat := now }),
       ("scrollbot",
        { type := "documentation", status := "active", alignment := 4/5, lastHeartbeat := now }),
       ("echobot",
        { type := "amplification", status := "active", alignment := 17/20, lastHeartbeat := now }),
       ("seasonalvoices",
        { type := "adaptation", status := "active", alignment := 3/4, lastHeartbeat := now })],
    alignmentMatrix := [],
    orchestrationState := "idle",
    convergenceThreshold := 17/20,
    lastAlignment := none,
    ritualQueue := [],
    activeRituals := [] }

/-- The header of `queueRitual`: default the id when unset
(`ritual.id || generateRitualId()`) and stamp the queue time. -/
def stampRitual (ritual : Ritual) (freshId : String) (now : ℕ) : Ritual :=
  { ritual with id := if ritual.id = "" then freshId else ritual.id,
                queued := some now }

/-- `queueRitual`: default the id when unset, stamp the queue time, then
insert by priority — `unshift` (head) for `priority === 'high'`, `push`
(tail) otherwise. -/
def queueRitual (st : OrchState) (ritual : Ritual) (freshId : String) (now : ℕ) :
    OrchState :=
  let r := stampRitual ritual freshId now
  if r.priority = some "high" then
    { st with ritualQueue := r :: st.ritualQueue }
  else
    { st with ritualQueue := st.ritualQueue ++ [r] }

/-- The state mutation `executeRitual` applies to the admitted ritual:
status becomes `executing` and `started` is stamped. -/
def executeRitualMark (now : ℕ) (r : Ritual) : Ritual :=
  { r with status := "executing", started := some now }

/-- The kinds `executeRitual`'s switch dispatches to a kind-specific
handler.  None of the three handler methods
(`performAlignmentConvergence`, `performBotSynchronization`,
`performCodexUpdate`) is defined, so dispatching any of these kinds
throws. -/
def ritualKindRecognized (r : Ritual) : Bool :=
  decide (r.type = "alignment_convergence")
    || decide (r.type = "bot_synchronization")
    || decide (r.type = "codex_update")

/-- The `while` loop of `processRitualQueue`: shift rituals off the queue
front while the queue is non-empty and the active set holds fewer than 5
rituals.  A shifted ritual of an unrecognized kind is marked executing and
added to the active set; a shifted ritual of a recognized kind hits the
undefined kind-specific handler, which throws before the add — the ritual
is dropped and the exception aborts the remaining drain (it is caught only
by the orchestration cycle).  Returns the remaining queue and the grown
active set. -/
def processQueueAux (now : ℕ) : List Ritual → List Ritual → List Ritual × List Ritual
  | [], active => ([], active)
  | r :: rest, active =>
    if active.length < 5 then
      if ritualKindRecognized r = true then (rest, active)
      else processQueueAux now rest (active ++ [executeRitualMark now r])
    else (r :: rest, active)

/-- `processRitualQueue` on the orchestrator state. -/
def processRitualQueue (st : OrchState) (now : ℕ) : OrchState :=
  let res := processQueueAux now st.ritualQueue st.activeRituals
  { st with ritualQueue := res.1, activeRituals := res.2 }

/-- `handleRelicTrigger`: build a `relic_trigger` ritual with status
`active`, fan out to the collaborator bots (appending each to
`participants`), and add the ritual directly to the active set — with no
check against the concurrency ceiling.  The fan-out dereferences the
`scrollbot` and `seasonalvoices` registry entries before the add; when one
is absent the dereference throws and the ritual sets are left
unchanged. -/
def handleRelicTrigger (st : OrchState) (relicType : String) (rid : String) (now : ℕ) :
    OrchState :=
  let ritual : Ritual :=
    { id := rid, type := "relic_trigger", data := relicType,
      participants := ["forgebot"] ++ ["scrollbot"] ++ ["echobot"] ++ ["seasonalvoices"],
      priority := none, status := "active", queued := none, started := some now }
  if (mapGet st.bots "scrollbot").isSome = true
      ∧ (mapGet st.bots "seasonalvoices").isSome = true then
    { st with activeRituals := st.activeRituals ++ [ritual] }
  else st

/-- `performConvergenceRitual`: build a `convergence_ritual` with status
`active` whose participants are all keys of the `bots` map (active or
not), and add it directly to the active set; nothing is queued.  The
convergence scroll and the `convergence:achieved` echo dereference the
`scrollbot` and `echobot` registry entries before the add; when one is
absent the dereference throws and no ritual is stored. -/
def performConvergenceRitual (st : OrchState) (rid : String) (now : ℕ) : OrchState :=
  let syncRitual : Ritual :=
    { id := rid, type := "convergence_ritual", data := "alignment",
      participants := st.bots.map Prod.fst,
      priority := none, status := "active", queued := none, started := some now }
  if (mapGet st.bots "scrollbot").isSome = true
      ∧ (mapGet st.bots "echobot").isSome = true then
    { st with activeRituals := st.activeRituals ++ [syncRitual] }
  else st

/-- `checkConvergenceOpportunities`: compare `lastAlignment` (JS `null`
coerces to 0) against the threshold; entering convergence runs
`performConvergenceRitual`, losing it queues a high-priority
`alignment_convergence` ritual; otherwise nothing happens. -/
def checkConvergenceOpportunities (st : OrchState) (rid : String) (now : ℕ) :
    OrchState :=
  if st.convergenceThreshold ≤ st.lastAlignment.getD 0 then
    if st.orchestrationState ≠ "converged" then
      performConvergenceRitual { st with orchestrationState := "converged" } rid now
    else st
  else
    if st.orchestrationState = "converged" then
      queueRitual { st with orchestrationState := "realigning" }
        { id := "", type := "alignment_convergence", data := "targetAlignment",
          participants := [], priority := some "high", status := "queued",
          queued := none, started := none } rid now
    else st

/-- The loop body of `calculateKypriaAlignment`: walk the `bots` map
accumulating `totalAlignment` and `activeBotsCount` over the active bots,
and, after accumulating, feed a bot's manifested average alignment back
into its own entry when its manifest reports one (`manifest name` is the
`manifest.scrollbot.averageAlignment` read, `none` for bots whose manifest
reports no average).  Returns the updated map and both accumulators. -/
def alignLoop (manifest : String → Option ℚ) :
    List (String × Bot) → ℚ → ℕ → List (String × Bot) × ℚ × ℕ
  | [], total, count => ([], total, count)
  | (name, bot) :: rest, total, count =>
    if bot.status = "active" then
      let updated := { bot with alignment := (manifest name).getD bot.alignment }
      let res := alignLoop manifest rest (total + bot.alignment) (count + 1)
      ((name, updated) :: res.1, res.2)
    else
      let res := alignLoop manifest rest total count
      ((name, bot) :: res.1, res.2)

/-- `Math.min` over a spread key list, as a left fold from a first key. -/
def minimumFrom (x : ℕ) : List ℕ → ℕ
  | [] => x
  | y :: rest => minimumFrom (min x y) rest

/-- The oldest key of the alignment matrix
(`Math.min(...this.alignmentMatrix.keys())`). -/
def minKey : List (ℕ × ℚ) → ℕ
  | [] => 0
  | p :: rest => minimumFrom p.1 (rest.map Prod.fst)

/-- `calculateKypriaAlignment`: set `lastAlignment` to the mean alignment
of active bots (0 when none are active), record the sample in the rolling
matrix keyed by `Date.now()`, and when the matrix exceeds 100 entries
delete the one with the oldest key. -/
def calculateKypriaAlignment (st : OrchState) (manifest : String → Option ℚ)
    (now : ℕ) : OrchState :=
  let res := alignLoop manifest st.bots 0 0
  let la : ℚ := if 0 < res.2.2 then res.2.1 / (res.2.2 : ℚ) else 0
  let mat := mapSet st.alignmentMatrix now la
  let mat2 := if 100 < mat.length then mat.filter (fun p => p.1 ≠ minKey mat) else mat
  { st with bots := res.1, lastAlignment := some la, alignmentMatrix := mat2 }

/-! ## Association-list map lemmas -/

theorem mapGet_mapSet_self {κ α : Type} [DecidableEq κ] (l : List (κ × α)) (k : κ) (v : α) :
    mapGet (mapSet l k v) k = some v := by
  induction l with
  | nil => simp [mapSet, mapGet]
  | cons p rest ih =>
    obtain ⟨k1, v1⟩ := p
    by_cases h : k1 = k
    · simp [mapSet, mapGet, h]
    · simp [mapSet, mapGet, h, ih]

theorem mem_mapSet_self {κ α : Type} [DecidableEq κ] (l : List (κ × α)) (k : κ) (v : α) :
    (k, v) ∈ mapSet l k v := by
  induction l with
  | nil => simp [mapSet]
  | cons p rest ih =>
    obtain ⟨k1, v1⟩ := p
    by_cases h : k1 = k
    · simp [mapSet, h]
    · simp only [mapSet, if_neg h, List.mem_cons]
      exact Or.inr ih

theorem mem_mapSet_of_ne {κ α : Type} [DecidableEq κ] {l : List (κ × α)} {p : κ × α}
    (k : κ) (v : α) (hp : p ∈ l) (hne : p.1 ≠ k) : p ∈ mapSet l k v := by
  induction l with
  | nil => cases hp
  | cons q rest ih =>
    obtain ⟨k1, v1⟩ := q
    rcases List.mem_cons.mp hp with rfl | hp2
    · have : k1 ≠ k := hne
      simp [mapSet, this]
    · by_cases h : k1 = k
      · simp only [mapSet, if_pos h, List.mem_cons]
        exact Or.inr hp2
      · simp only [mapSet, if_neg h, List.mem_cons]
        exact Or.inr (ih hp2)

theorem length_mapSet_le {κ α : Type} [DecidableEq κ] (l : List (κ × α)) (k : κ) (v : α) :
    (mapSet l k v).length ≤ l.length + 1 := by
  induction l with
  | nil => simp [mapSet]
  | cons p rest ih =>
    obtain ⟨k1, v1⟩ := p
    by_cases h : k1 = k
    · simp [mapSet, h]
    · simpa [mapSet, h] using ih

theorem mapSet_of_fresh {κ α : Type} [DecidableEq κ] {l : List (κ × α)} {k : κ}
    (v : α) (h : ∀ p ∈ l, p.1 ≠ k) : mapSet l k v = l ++ [(k, v)] := by
  induction l with
  | nil => simp [mapSet]
  | cons p rest ih =>
    obtain ⟨k1, v1⟩ := p
    have h1 : k1 ≠ k := h (k1, v1) (List.mem_cons_self _ _)
    simp only [mapSet, if_neg h1, List.cons_append, List.cons.injEq, true_and]
    exact ih fun q hq => h q (List.mem_cons_of_mem _ hq)

theorem mapGet_eq_none_of_forall {κ α : Type} [DecidableEq κ] {l : List (κ × α)} {k : κ}
    (h : ∀ p ∈ l, p.1 ≠ k) : mapGet l k = none := by
  induction l with
  | nil => rfl
  | cons p rest ih =>
    obtain ⟨k1, v1⟩ := p
    have h1 : k1 ≠ k := h (k1, v1) (List.mem_cons_self _ _)
    simp only [mapGet, if_neg h1]
    exact ih fun q hq => h q (List.mem_cons_of_mem _ hq)

theorem mapGet_map_value {κ α : Type} [DecidableEq κ] (l : List (κ × α)) (k : κ) (f : α → α) :
    mapGet (l.map fun p => (p.1, f p.2)) k = (mapGet l k).map f := by
  induction l with
  | nil => rfl
  | cons p rest ih =>
    obtain ⟨k1, v1⟩ := p
    by_cases h : k1 = k
    · simp [mapGet, h]
    · simp [mapGet, h, ih]

/-! ## Concrete demonstration states -/

/-- The echo `createEcho` builds for a `relic:deadwood` event with payload
`"payload"`, id `"e1"`, at time 0. -/
def demoEcho : Echo :=
  { id := "e1", type := "relic:deadwood", data := "payload",
    pattern := { frequency := "low", amplitude := 7/10, decay := 5000,
                 harmonics := ["audit", "investigation", "vigilance"] },
    created := 0, expires := 5000, amplitude := 7/10, resonating := true }

/-- A fresh EchoBot that has created one `relic:deadwood` echo. -/
def demoEchoState : EchoBotState :=
  (createEcho initialEchoBot "relic:deadwood" "payload" "e1" 0).state

/-- A high-priority ritual as handed to `queueRitual`, of a kind the
`executeRitual` switch does not recognize (so its admission succeeds
rather than throwing in the undefined kind handler). -/
def highRitual (rid : String) : Ritual :=
  { id := rid, type := "relic_trigger", data := "",
    participants := [], priority := some "high", status := "queued",
    queued := none, started := none }

/-- The initialized orchestrator at a cycle where the aggregate alignment
has reached the threshold but convergence has not yet been entered. -/
def convergedDemo : OrchState :=
  { initialOrchestrator 0 with lastAlignment := some (9/10) }

/-! ## C10 — amplify with an unknown echo id is a silent no-op -/

/-- C10: `amplifyEcho` called with an id absent from the chamber map raises
no error, emits no `echo:amplified` event, and leaves the state (all stored
echoes and the active count) unchanged. -/
theorem amplify_unknown_noop (s : EchoBotState) (echoId : String) (m : ℚ)
    (h : mapGet s.echoChambers echoId = none) :
    amplifyEcho s echoId m = (s, false) := by
  unfold amplifyEcho
  rw [h]

/-- C10 witness: amplifying a missing id on a one-echo state. -/
theorem amplify_unknown_noop_witness :
    mapGet demoEchoState.echoChambers "e2" = none ∧
    amplifyEcho demoEchoState "e2" (3/2) = (demoEchoState, false) :=
  ⟨by decide, amplify_unknown_noop demoEchoState "e2" (3/2) (by decide)⟩

/-! ## C9 — unknown kinds fall back to the default pattern -/

/-- C9: `createEcho` with a kind that has no registered resonance pattern,
called below capacity, succeeds: it stores and returns an echo built from
the default pattern (amplitude 0.5, decay 3000, no harmonics), and
schedules no harmonic notifications. -/
theorem createEcho_default_pattern (s : EchoBotState) (kind data echoId : String)
    (now : ℕ) (hpat : resonancePatterns kind = none)
    (hcap : s.activeEchoes < s.maxEchoes) :
    ∃ e, (createEcho s kind data echoId now).returned = some e ∧
      e.pattern = getDefaultPattern ∧
      e.pattern.amplitude = 1/2 ∧ e.pattern.decay = 3000 ∧ e.pattern.harmonics = [] ∧
      (createEcho s kind data echoId now).harmonicsGenerated = false ∧
      (createEcho s kind data echoId now).state.echoChambers
        = mapSet s.echoChambers echoId e ∧
      (createEcho s kind data echoId now).state.activeEchoes = s.activeEchoes + 1 := by
  have hng : ¬ s.maxEchoes ≤ s.activeEchoes := not_le.mpr hcap
  refine ⟨{ id := echoId, type := kind, data := data, pattern := getDefaultPattern,
            created := now, expires := now + 3000, amplitude := 1/2,
            resonating := true }, ?_, ?_, ?_, ?_, ?_, ?_, ?_, ?_⟩ <;>
    simp [createEcho, hng, hpat, getDefaultPattern]

/-- C9 witness: an unregistered kind on a fresh EchoBot. -/
theorem createEcho_default_pattern_witness :
    resonancePatterns "relic:unknown" = none ∧
    initialEchoBot.activeEchoes < initialEchoBot.maxEchoes ∧
    (∃ e, (createEcho initialEchoBot "relic:unknown" "d" "e1" 0).returned = some e ∧
      e.pattern = getDefaultPattern ∧
      e.pattern.amplitude = 1/2 ∧ e.pattern.decay = 3000 ∧ e.pattern.harmonics = [] ∧
      (createEcho initialEchoBot "relic:unknown" "d" "e1" 0).harmonicsGenerated = false ∧
      (createEcho initialEchoBot "relic:unknown" "d" "e1" 0).state.echoChambers
        = mapSet initialEchoBot.echoChambers "e1" e ∧
      (createEcho initialEchoBot "relic:unknown" "d" "e1" 0).state.activeEchoes
        = initialEchoBot.activeEchoes + 1) :=
  ⟨by decide, by decide,
    createEcho_default_pattern initialEchoBot "relic:unknown" "d" "e1" 0
      (by decide) (by decide)⟩

/-! ## Field lemmas for the decay tick -/

theorem updateEcho_of_not_resonating (e : Echo) (n : ℕ) (h : ¬ e.resonating = true) :
    updateEcho n e = e := by
  unfold updateEcho
  rw [if_neg fun hc => h hc.1]

theorem updateEcho_of_expired (e : Echo) (n : ℕ) (h : ¬ n < e.expires) :
    updateEcho n e = e := by
  unfold updateEcho
  rw [if_neg fun hc => h hc.2]

theorem updateEcho_of_live (e : Echo) (n : ℕ) (hres : e.resonating = true)
    (h : n < e.expires) :
    updateEcho n e =
      { e with
        amplitude :=
          e.pattern.amplitude * (1 - ((n - e.created : ℕ) : ℚ) / (e.pattern.decay : ℚ)),
        resonating :=
          if e.pattern.amplitude * (1 - ((n - e.created : ℕ) : ℚ) / (e.pattern.decay : ℚ))
              ≤ 1/10 then false
          else e.resonating } := by
  unfold updateEcho
  rw [if_pos ⟨hres, h⟩]

theorem updateEcho_pattern (n : ℕ) (e : Echo) : (updateEcho n e).pattern = e.pattern := by
  unfold updateEcho
  split <;> rfl

theorem updateEcho_created (n : ℕ) (e : Echo) : (updateEcho n e).created = e.created := by
  unfold updateEcho
  split <;> rfl

theorem updateEcho_expires (n : ℕ) (e : Echo) : (updateEcho n e).expires = e.expires := by
  unfold updateEcho
  split <;> rfl

theorem updateEcho_amplitude_of_live (e : Echo) (n : ℕ) (hres : e.resonating = true)
    (h : n < e.expires) :
    (updateEcho n e).amplitude =
      e.pattern.amplitude * (1 - ((n - e.created : ℕ) : ℚ) / (e.pattern.decay : ℚ)) := by
  rw [updateEcho_of_live e n hres h]

theorem updateEcho_resonating_of_live (e : Echo) (n : ℕ) (hres : e.resonating = true)
    (h : n < e.expires) :
    (updateEcho n e).resonating =
      if e.pattern.amplitude * (1 - ((n - e.created : ℕ) : ℚ) / (e.pattern.decay : ℚ))
          ≤ 1/10 then false
      else true := by
  rw [updateEcho_of_live e n hres h, ← hres]

/-! ## C7 — echo amplitude over time -/

/-- C7 counterexample: amplitude is not monotonically non-increasing under
interleavings that include `amplifyEcho`.  On a resonating echo of
amplitude 0.7, `amplifyEcho` with the 1.5 multiplier used for critical
relic misfires raises the stored amplitude to 1.05. -/
theorem amplify_increases_amplitude_cex :
    (demoEchoState.echoChambers.map fun p => p.2.amplitude) = [7/10] ∧
    (demoEchoState.echoChambers.map fun p => p.2.resonating) = [true] ∧
    ((amplifyEcho demoEchoState "e1" (3/2)).1.echoChambers.map fun p => p.2.amplitude)
      = [21/20] ∧
    (7 : ℚ)/10 < 21/20 := by
  refine ⟨rfl, rfl, ?_, by norm_num⟩
  show [min ((7 : ℚ)/10 * (3/2)) 2] = [21/20]
  norm_num

/-- C7 as amended: while resonating, the amplitude is monotonically
non-increasing under the decay tick alone (two successive ticks never
raise it, since each tick recomputes it from the pattern base and the
age); `amplifyEcho`, by contrast, multiplies the stored amplitude by its
multiplier capped at 2.0, which can raise it. -/
theorem echo_decay_monotone_amplify_capped (e : Echo) (t1 t2 : ℕ)
    (s : EchoBotState) (echoId : String) (echo : Echo) (m : ℚ)
    (hres : e.resonating = true) (h12 : t1 ≤ t2)
    (hbase : 0 ≤ e.pattern.amplitude) (hdecay : 0 < e.pattern.decay)
    (hget : mapGet s.echoChambers echoId = some echo) :
    (updateEcho t2 (updateEcho t1 e)).amplitude ≤ (updateEcho t1 e).amplitude ∧
    mapGet (amplifyEcho s echoId m).1.echoChambers echoId
      = some { echo with amplitude := min (echo.amplitude * m) 2 } := by
  constructor
  · by_cases h1 : t1 < e.expires
    · have hamp1 := updateEcho_amplitude_of_live e t1 hres h1
      have hres1 := updateEcho_resonating_of_live e t1 hres h1
      set a1 : ℚ :=
        e.pattern.amplitude * (1 - ((t1 - e.created : ℕ) : ℚ) / (e.pattern.decay : ℚ))
        with ha1
      by_cases hlow : a1 ≤ 1/10
      · rw [updateEcho_of_not_resonating (updateEcho t1 e) t2
          (by rw [hres1, if_pos hlow]; simp)]
      · by_cases h2 : t2 < e.expires
        · have h2e : t2 < (updateEcho t1 e).expires := by
            rw [updateEcho_expires]
            exact h2
          have hrese : (updateEcho t1 e).resonating = true := by
            rw [hres1, if_neg hlow]
          rw [updateEcho_amplitude_of_live (updateEcho t1 e) t2 hrese h2e,
            updateEcho_pattern, updateEcho_created, hamp1, ha1]
          have hsub : ((t1 - e.created : ℕ) : ℚ) ≤ ((t2 - e.created : ℕ) : ℚ) := by
            exact_mod_cast Nat.sub_le_sub_right h12 e.created
          have hd : (0 : ℚ) < (e.pattern.decay : ℚ) := by exact_mod_cast hdecay
          have hdiv : ((t1 - e.created : ℕ) : ℚ) / (e.pattern.decay : ℚ)
              ≤ ((t2 - e.created : ℕ) : ℚ) / (e.pattern.decay : ℚ) := by gcongr
          have hone : (1 : ℚ) - ((t2 - e.created : ℕ) : ℚ) / (e.pattern.decay : ℚ)
              ≤ 1 - ((t1 - e.created : ℕ) : ℚ) / (e.pattern.decay : ℚ) :=
            sub_le_sub_left hdiv 1
          exact mul_le_mul_of_nonneg_left hone hbase
        · rw [updateEcho_of_expired (updateEcho t1 e) t2
            (by rw [updateEcho_expires]; exact h2)]
    · rw [updateEcho_of_expired e t1 h1,
        updateEcho_of_expired e t2 fun hlt => h1 (lt_of_le_of_lt h12 hlt)]
  · rw [amplifyEcho, hget]
    exact mapGet_mapSet_self _ _ _

/-- C7 witness: the amended statement at a concrete deadwood echo, tick
times 1000 and 2000, and a 1.5-fold amplification. -/
theorem echo_decay_monotone_amplify_capped_witness :
    demoEcho.resonating = true ∧ (1000 : ℕ) ≤ 2000 ∧
    (0 : ℚ) ≤ demoEcho.pattern.amplitude ∧ 0 < demoEcho.pattern.decay ∧
    mapGet demoEchoState.echoChambers "e1" = some demoEcho ∧
    ((updateEcho 2000 (updateEcho 1000 demoEcho)).amplitude
        ≤ (updateEcho 1000 demoEcho).amplitude ∧
      mapGet (amplifyEcho demoEchoState "e1" (3/2)).1.echoChambers "e1"
        = some { demoEcho with amplitude := min (demoEcho.amplitude * (3/2)) 2 }) :=
  ⟨rfl, by norm_num, by norm_num [demoEcho], by norm_num [demoEcho], rfl,
    echo_decay_monotone_amplify_capped demoEcho 1000 2000 demoEchoState "e1" demoEcho
      (3/2) rfl (by norm_num) (by norm_num [demoEcho]) (by norm_num [demoEcho]) rfl⟩

/-! ## C2 — ritual queue ordering -/

/-- A sequence of `queueRitual` calls, each with its ritual, fresh id and
queue time. -/
def enqueueAll (st : OrchState) : List (Ritual × String × ℕ) → OrchState
  | [] => st
  | c :: rest => enqueueAll (queueRitual st c.1 c.2.1 c.2.2) rest

/-- The insertion test of `queueRitual` (`ritual.priority === 'high'`). -/
def isHighPriority (r : Ritual) : Bool :=
  decide (r.priority = some "high")

/-- C2 counterexample: two high-priority rituals (of a kind whose
admission does not throw in the undefined kind-specific handler) queued in
the order r1 then r2 leave the queue as [r2, r1], and draining admits r2
first — the later-queued high ritual is admitted before the earlier one,
so the high class is not FIFO. -/
theorem high_priority_lifo_cex :
    (highRitual "r1").priority = some "high" ∧
    (highRitual "r2").priority = some "high" ∧
    ((queueRitual (queueRitual (initialOrchestrator 0) (highRitual "r1") "x" 1)
        (highRitual "r2") "y" 2).ritualQueue.map Ritual.id) = ["r2", "r1"] ∧
    ((processRitualQueue (queueRitual (queueRitual (initialOrchestrator 0)
          (highRitual "r1") "x" 1) (highRitual "r2") "y" 2) 3).activeRituals.map
        Ritual.id) = ["r2", "r1"] := by
  refine ⟨rfl, rfl, rfl, rfl⟩

/-- C2 as amended: after any sequence of enqueues, the queue is the
reversed list of its high-priority entries (the high class is LIFO — each
newly queued high ritual goes to the very head, ahead of earlier high
rituals), followed by the pre-existing queue, followed by the
normal-priority entries in FIFO order; since admission shifts from the
head, every high entry is admitted before every normal entry. -/
theorem ritual_queue_order (st : OrchState) (calls : List (Ritual × String × ℕ)) :
    (enqueueAll st calls).ritualQueue =
      ((calls.map fun c => stampRitual c.1 c.2.1 c.2.2).filter isHighPriority).reverse
        ++ st.ritualQueue
        ++ (calls.map fun c => stampRitual c.1 c.2.1 c.2.2).filter
            (fun r => !isHighPriority r) := by
  induction calls generalizing st with
  | nil => simp [enqueueAll]
  | cons c rest ih =>
    show (enqueueAll (queueRitual st c.1 c.2.1 c.2.2) rest).ritualQueue = _
    rw [ih]
    by_cases h : (stampRitual c.1 c.2.1 c.2.2).priority = some "high"
    · have hq : (queueRitual st c.1 c.2.1 c.2.2).ritualQueue
          = stampRitual c.1 c.2.1 c.2.2 :: st.ritualQueue := by
        unfold queueRitual
        rw [if_pos h]

      rw [hq]
      simp [isHighPriority, h, List.filter_cons]
    · have hq : (queueRitual st c.1 c.2.1 c.2.2).ritualQueue
          = st.ritualQueue ++ [stampRitual c.1 c.2.1 c.2.2] := by
        unfold queueRitual
        rw [if_neg h]
      rw [hq]
      simp [isHighPriority, h, List.filter_cons]

/-! ## C1 — the concurrency ceiling -/

/-- The queue drain keeps the active set within the ceiling: each step
either admits one ritual while the count is below 5, drops one shifted
ritual whose kind-specific dispatch throws (aborting the drain), or stops
at a full active set. -/
theorem processQueueAux_le (now : ℕ) (q : List Ritual) :
    ∀ a : List Ritual, a.length ≤ 5 → (processQueueAux now q a).2.length ≤ 5 := by
  induction q with
  | nil => exact fun a h => h
  | cons r rest ih =>
    intro a h
    by_cases hlt : a.length < 5
    · by_cases hrec : ritualKindRecognized r = true
      · simpa [processQueueAux, hlt, hrec] using h
      · have hrecur := ih (a ++ [executeRitualMark now r]) (by simp; omega)
        simpa [processQueueAux, hlt, hrec] using hrecur
    · simpa [processQueueAux, hlt] using h

/-- C1 as amended: admission from the queue respects the ceiling — the
drain loop admits a ritual only while the active set holds fewer than 5,
so starting within the ceiling it never exceeds it; when the shifted
ritual is of a kind the switch recognizes, the undefined kind handler
throws before the add, dropping that ritual and aborting the drain with
the active set unchanged.  Rituals created directly by the event handlers
(here `handleRelicTrigger`, whose collaborator lookups succeed on any
state holding the `scrollbot` and `seasonalvoices` entries) are added to
the active set without any ceiling check. -/
theorem ritual_concurrency_ceiling (st : OrchState) (now : ℕ) (st2 : OrchState)
    (relicType rid : String) (now2 : ℕ)
    (h : st.activeRituals.length ≤ 5)
    (hscroll : (mapGet st2.bots "scrollbot").isSome = true)
    (hvoice : (mapGet st2.bots "seasonalvoices").isSome = true) :
    (processRitualQueue st now).activeRituals.length ≤ 5 ∧
    (∀ r rest, st.ritualQueue = r :: rest → ritualKindRecognized r = true →
      st.activeRituals.length < 5 →
      (processRitualQueue st now).ritualQueue = rest ∧
      (processRitualQueue st now).activeRituals = st.activeRituals) ∧
    (handleRelicTrigger st2 relicType rid now2).activeRituals.length
      = st2.activeRituals.length + 1 := by
  refine ⟨processQueueAux_le now st.ritualQueue st.activeRituals h, ?_, ?_⟩
  · intro r rest hq hrec hlt
    have haux : processQueueAux now st.ritualQueue st.activeRituals
        = (rest, st.activeRituals) := by
      rw [hq]
      simp [processQueueAux, hlt, hrec]
    constructor
    · show (processQueueAux now st.ritualQueue st.activeRituals).1 = rest
      rw [haux]
    · show (processQueueAux now st.ritualQueue st.activeRituals).2 = st.activeRituals
      rw [haux]
  · unfold handleRelicTrigger
    rw [if_pos ⟨hscroll, hvoice⟩]
    simp

/-- C1 witness: the fresh orchestrator satisfies the ceiling and
collaborator-presence hypotheses. -/
theorem ritual_concurrency_ceiling_witness :
    (initialOrchestrator 0).activeRituals.length ≤ 5 ∧
    (mapGet (initialOrchestrator 0).bots "scrollbot").isSome = true ∧
    (mapGet (initialOrchestrator 0).bots "seasonalvoices").isSome = true ∧
    ((processRitualQueue (initialOrchestrator 0) 1).activeRituals.length ≤ 5 ∧
      (∀ r rest, (initialOrchestrator 0).ritualQueue = r :: rest →
        ritualKindRecognized r = true →
        (initialOrchestrator 0).activeRituals.length < 5 →
        (processRitualQueue (initialOrchestrator 0) 1).ritualQueue = rest ∧
        (processRitualQueue (initialOrchestrator 0) 1).activeRituals
          = (initialOrchestrator 0).activeRituals) ∧
      (handleRelicTrigger (initialOrchestrator 0) "Deadwood" "r1" 2).activeRituals.length
        = (initialOrchestrator 0).activeRituals.length + 1) :=
  ⟨by decide, by decide, by decide,
    ritual_concurrency_ceiling (initialOrchestrator 0) 1 (initialOrchestrator 0)
      "Deadwood" "r1" 2 (by decide) (by decide) (by decide)⟩

/-- Six relic triggers arriving before any ritual completes. -/
def relicStorm : OrchState :=
  handleRelicTrigger (handleRelicTrigger (handleRelicTrigger (handleRelicTrigger
    (handleRelicTrigger (handleRelicTrigger (initialOrchestrator 0)
      "Deadwood" "r1" 1) "Deadwood" "r2" 2) "Deadwood" "r3" 3)
    "Deadwood" "r4" 4) "Deadwood" "r5" 5) "Deadwood" "r6" 6

/-- C1 counterexample: an arrival pattern of six event-handler rituals on
the initialized orchestrator (whose registry holds the `scrollbot` and
`seasonalvoices` entries the handler dereferences, so every add succeeds)
drives the active (status `active`) ritual count to 6, above the ceiling
of 5 — the handlers never consult the ceiling. -/
theorem ritual_ceiling_bypass_cex :
    relicStorm.activeRituals.length = 6 ∧ 5 < 6 ∧
    relicStorm.activeRituals.map Ritual.status
      = ["active", "active", "active", "active", "active", "active"] := by
  refine ⟨rfl, by norm_num, rfl⟩

/-! ## C3 — convergence transitions -/

/-- C3 as amended: entering convergence is edge-triggered — on the first
cycle with alignment at or above the threshold while not converged, the
state becomes `converged` and exactly one `convergence_ritual` is created
(given that the registry holds the `scrollbot` and `echobot` entries the
ritual dereferences, as the initialized orchestrator always does); but the
ritual is added directly to the active set with status `active` and no
priority (nothing is queued), its participants are all registered bot
names, and a second cycle with the alignment still at or above the
threshold changes nothing. -/
theorem convergence_edge_trigger (st : OrchState) (rid : String) (now : ℕ)
    (rid2 : String) (now2 : ℕ)
    (hthr : st.convergenceThreshold ≤ st.lastAlignment.getD 0)
    (hst : st.orchestrationState ≠ "converged")
    (hscroll : (mapGet st.bots "scrollbot").isSome = true)
    (hecho : (mapGet st.bots "echobot").isSome = true) :
    (checkConvergenceOpportunities st rid now).orchestrationState = "converged" ∧
    (checkConvergenceOpportunities st rid now).ritualQueue = st.ritualQueue ∧
    (checkConvergenceOpportunities st rid now).activeRituals.map Ritual.type
      = st.activeRituals.map Ritual.type ++ ["convergence_ritual"] ∧
    (checkConvergenceOpportunities st rid now).activeRituals.map Ritual.participants
      = st.activeRituals.map Ritual.participants ++ [st.bots.map Prod.fst] ∧
    (checkConvergenceOpportunities st rid now).activeRituals.map Ritual.priority
      = st.activeRituals.map Ritual.priority ++ [none] ∧
    (checkConvergenceOpportunities st rid now).activeRituals.map Ritual.status
      = st.activeRituals.map Ritual.status ++ ["active"] ∧
    checkConvergenceOpportunities (checkConvergenceOpportunities st rid now) rid2 now2
      = checkConvergenceOpportunities st rid now := by
  have hperf : performConvergenceRitual { st with orchestrationState := "converged" } rid now
      = { st with
          orchestrationState := "converged",
          activeRituals := st.activeRituals
            ++ [{ id := rid, type := "convergence_ritual", data := "alignment",
                  participants := st.bots.map Prod.fst, priority := none,
                  status := "active", queued := none, started := some now }] } := by
    unfold performConvergenceRitual
    rw [if_pos ⟨hscroll, hecho⟩]
  have heq : checkConvergenceOpportunities st rid now
      = { st with
          orchestrationState := "converged",
          activeRituals := st.activeRituals
            ++ [{ id := rid, type := "convergence_ritual", data := "alignment",
                  participants := st.bots.map Prod.fst, priority := none,
                  status := "active", queued := none, started := some now }] } := by
    unfold checkConvergenceOpportunities
    rw [if_pos hthr, if_pos hst, hperf]
  have hsecond : ∀ st3 : OrchState, st3.orchestrationState = "converged" →
      st3.convergenceThreshold ≤ st3.lastAlignment.getD 0 →
      checkConvergenceOpportunities st3 rid2 now2 = st3 := by
    intro st3 hconv hthr3
    unfold checkConvergenceOpportunities
    rw [if_pos hthr3, if_neg fun hne => hne hconv]
  rw [heq]
  exact ⟨rfl, rfl, by simp, by simp, by simp, by simp, hsecond _ rfl hthr⟩

/-- C3 witness: the initialized orchestrator at threshold alignment, not
yet converged. -/
theorem convergence_edge_trigger_witness :
    convergedDemo.convergenceThreshold ≤ convergedDemo.lastAlignment.getD 0 ∧
    convergedDemo.orchestrationState ≠ "converged" ∧
    (mapGet convergedDemo.bots "scrollbot").isSome = true ∧
    (mapGet convergedDemo.bots "echobot").isSome = true ∧
    ((checkConvergenceOpportunities convergedDemo "r1" 7).orchestrationState
        = "converged" ∧
      (checkConvergenceOpportunities convergedDemo "r1" 7).ritualQueue
        = convergedDemo.ritualQueue ∧
      (checkConvergenceOpportunities convergedDemo "r1" 7).activeRituals.map
          Ritual.type
        = convergedDemo.activeRituals.map Ritual.type ++ ["convergence_ritual"] ∧
      (checkConvergenceOpportunities convergedDemo "r1" 7).activeRituals.map
          Ritual.participants
        = convergedDemo.activeRituals.map Ritual.participants
            ++ [convergedDemo.bots.map Prod.fst] ∧
      (checkConvergenceOpportunities convergedDemo "r1" 7).activeRituals.map
          Ritual.priority
        = convergedDemo.activeRituals.map Ritual.priority ++ [none] ∧
      (checkConvergenceOpportunities convergedDemo "r1" 7).activeRituals.map
          Ritual.status
        = convergedDemo.activeRituals.map Ritual.status ++ ["active"] ∧
      checkConvergenceOpportunities
          (checkConvergenceOpportunities convergedDemo "r1" 7) "r2" 8
        = checkConvergenceOpportunities convergedDemo "r1" 7) :=
  ⟨by norm_num [convergedDemo, initialOrchestrator], by decide, by decide, by decide,
    convergence_edge_trigger convergedDemo "r1" 7 "r2" 8
      (by norm_num [convergedDemo, initialOrchestrator]) (by decide) (by decide)
      (by decide)⟩

/-- C3 counterexample: on the initialized orchestrator's first cycle at
threshold alignment, the state does become `converged` and one
`convergence_ritual` appears — but the ritual queue stays empty and the
ritual carries status `active` and no priority, against the claim that a
`convergence_ritual` is queued with `priority=high`. -/
theorem convergence_ritual_not_queued_cex :
    (checkConvergenceOpportunities convergedDemo "r1" 7).orchestrationState
      = "converged" ∧
    (checkConvergenceOpportunities convergedDemo "r1" 7).ritualQueue = [] ∧
    ((checkConvergenceOpportunities convergedDemo "r1" 7).activeRituals.map
        Ritual.type) = ["convergence_ritual"] ∧
    ((checkConvergenceOpportunities convergedDemo "r1" 7).activeRituals.map
        Ritual.priority) = [none] ∧
    ((checkConvergenceOpportunities convergedDemo "r1" 7).activeRituals.map
        Ritual.status) = ["active"] := by
  have heq : checkConvergenceOpportunities convergedDemo "r1" 7
      = performConvergenceRitual
          { convergedDemo with orchestrationState := "converged" } "r1" 7 := by
    unfold checkConvergenceOpportunities
    rw [if_pos (by norm_num [convergedDemo, initialOrchestrator]), if_pos (by decide)]
  have hperf : performConvergenceRitual
        { convergedDemo with orchestrationState := "converged" } "r1" 7
      = { convergedDemo with
          orchestrationState := "converged",
          activeRituals := convergedDemo.activeRituals
            ++ [{ id := "r1", type := "convergence_ritual", data := "alignment",
                  participants := convergedDemo.bots.map Prod.fst, priority := none,
                  status := "active", queued := none, started := some 7 }] } := by
    unfold performConvergenceRitual
    rw [if_pos ⟨by decide, by decide⟩]
  rw [heq, hperf]
  exact ⟨rfl, rfl, rfl, rfl, rfl⟩

/-! ## C6 — the aggregate alignment is the mean over active bots -/

/-- The accumulators of the `calculateKypriaAlignment` loop are the sum of
the active bots' alignments and the count of active bots. -/
theorem alignLoop_totals (manifest : String → Option ℚ) (bots : List (String × Bot)) :
    ∀ (total : ℚ) (count : ℕ),
      (alignLoop manifest bots total count).2.1
        = total + ((bots.filter fun p => p.2.status = "active").map
            fun p => p.2.alignment).sum ∧
      (alignLoop manifest bots total count).2.2
        = count + (bots.filter fun p => p.2.status = "active").length := by
  induction bots with
  | nil => intro total count; simp [alignLoop]
  | cons p rest ih =>
    intro total count
    obtain ⟨name, bot⟩ := p
    by_cases h : bot.status = "active"
    · have hr := ih (total + bot.alignment) (count + 1)
      constructor
      · rw [show (alignLoop manifest ((name, bot) :: rest) total count).2.1
            = (alignLoop manifest rest (total + bot.alignment) (count + 1)).2.1 by
          simp [alignLoop, h], hr.1]
        simp [List.filter_cons, h]
        ring
      · rw [show (alignLoop manifest ((name, bot) :: rest) total count).2.2
            = (alignLoop manifest rest (total + bot.alignment) (count + 1)).2.2 by
          simp [alignLoop, h], hr.2]
        simp [List.filter_cons, h]
        omega
    · have hr := ih total count
      constructor
      · rw [show (alignLoop manifest ((name, bot) :: rest) total count).2.1
            = (alignLoop manifest rest total count).2.1 by simp [alignLoop, h], hr.1]
        simp [List.filter_cons, h]
      · rw [show (alignLoop manifest ((name, bot) :: rest) total count).2.2
            = (alignLoop manifest rest total count).2.2 by simp [alignLoop, h], hr.2]
        simp [List.filter_cons, h]

/-- C6: each cycle sets the aggregate alignment to the arithmetic mean of
the alignments of the registry's active bots, and to 0 when no bot is
active (no division by zero). -/
theorem alignment_mean_of_active (st : OrchState) (manifest : String → Option ℚ)
    (now : ℕ) :
    (calculateKypriaAlignment st manifest now).lastAlignment =
      some (if (st.bots.filter fun p => p.2.status = "active").length = 0 then 0
        else ((st.bots.filter fun p => p.2.status = "active").map
            fun p => p.2.alignment).sum
          / (((st.bots.filter fun p => p.2.status = "active").length : ℕ) : ℚ)) := by
  have h := alignLoop_totals manifest st.bots 0 0
  have hla : (calculateKypriaAlignment st manifest now).lastAlignment
      = some (if 0 < (alignLoop manifest st.bots 0 0).2.2
          then (alignLoop manifest st.bots 0 0).2.1
            / (((alignLoop manifest st.bots 0 0).2.2 : ℕ) : ℚ)
          else 0) := rfl
  rw [hla, h.1, h.2]
  by_cases h0 : (st.bots.filter fun p => p.2.status = "active").length = 0
  · simp [h0]
  · have hpos : 0 < (st.bots.filter fun p => p.2.status = "active").length :=
      Nat.pos_of_ne_zero h0
    simp [h0, hpos]

/-! ## C8 — the rolling alignment history is capped at 100 -/

theorem minimumFrom_le (x : ℕ) (l : List ℕ) : minimumFrom x l ≤ x := by
  induction l generalizing x with
  | nil => exact le_rfl
  | cons y rest ih => exact le_trans (ih (min x y)) (min_le_left x y)

theorem minimumFrom_le_mem (x : ℕ) (l : List ℕ) : ∀ y ∈ l, minimumFrom x l ≤ y := by
  induction l generalizing x with
  | nil => intro y hy; cases hy
  | cons z rest ih =>
    intro y hy
    rcases List.mem_cons.mp hy with rfl | hy2
    · exact le_trans (minimumFrom_le (min x y) rest) (min_le_right x y)
    · exact ih (min x z) y hy2

theorem minimumFrom_eq_or_mem (x : ℕ) (l : List ℕ) :
    minimumFrom x l = x ∨ minimumFrom x l ∈ l := by
  induction l generalizing x with
  | nil => exact Or.inl rfl
  | cons z rest ih =>
    have hstep : minimumFrom x (z :: rest) = minimumFrom (min x z) rest := rfl
    rcases ih (min x z) with heq | hmem
    · rw [hstep, heq]
      rcases le_total x z with hxz | hzx
      · rw [min_eq_left hxz]
        exact Or.inl rfl
      · rw [min_eq_right hzx]
        exact Or.inr (List.mem_cons_self _ _)
    · rw [hstep]
      exact Or.inr (List.mem_cons_of_mem _ hmem)

theorem minKey_le (mat : List (ℕ × ℚ)) : ∀ p ∈ mat, minKey mat ≤ p.1 := by
  intro p hp
  cases mat with
  | nil => cases hp
  | cons q rest =>
    rcases List.mem_cons.mp hp with rfl | hp2
    · exact minimumFrom_le p.1 (rest.map Prod.fst)
    · exact minimumFrom_le_mem q.1 (rest.map Prod.fst) p.1 (List.mem_map_of_mem _ hp2)

theorem minKey_is_key (mat : List (ℕ × ℚ)) (h : mat ≠ []) :
    minKey mat ∈ mat.map Prod.fst := by
  cases mat with
  | nil => exact absurd rfl h
  | cons q rest =>
    rcases minimumFrom_eq_or_mem q.1 (rest.map Prod.fst) with heq | hmem
    · show minimumFrom q.1 (rest.map Prod.fst) ∈ (q :: rest).map Prod.fst
      rw [heq]
      simp
    · exact List.mem_cons_of_mem _ hmem

theorem length_filter_ne_lt (l : List (ℕ × ℚ)) (k : ℕ) (hk : k ∈ l.map Prod.fst) :
    (l.filter fun p => p.1 ≠ k).length < l.length := by
  induction l with
  | nil => simp at hk
  | cons q rest ih =>
    rw [List.map_cons] at hk
    rcases List.mem_cons.mp hk with heq | hmem
    · have hcond : (decide (q.1 ≠ k)) = false := by simp [heq]
      rw [List.filter_cons, hcond, if_neg (by simp), List.length_cons]
      have hle := List.length_filter_le (fun p => decide (p.1 ≠ k)) rest
      omega
    · by_cases hqk : q.1 = k
      · have hcond : (decide (q.1 ≠ k)) = false := by simp [hqk]
        rw [List.filter_cons, hcond, if_neg (by simp), List.length_cons]
        have hle := List.length_filter_le (fun p => decide (p.1 ≠ k)) rest
        omega
      · have hcond : (decide (q.1 ≠ k)) = true := by simp [hqk]
        rw [List.filter_cons, hcond, if_pos rfl, List.length_cons, List.length_cons]
        exact Nat.succ_lt_succ (ih hmem)

/-- The history append-and-evict step keeps at most 100 samples. -/
theorem matrixStep_length (mat0 : List (ℕ × ℚ)) (now : ℕ) (la : ℚ)
    (h : mat0.length ≤ 100) :
    (if 100 < (mapSet mat0 now la).length
      then (mapSet mat0 now la).filter fun p => p.1 ≠ minKey (mapSet mat0 now la)
      else mapSet mat0 now la).length ≤ 100 := by
  by_cases hof : 100 < (mapSet mat0 now la).length
  · rw [if_pos hof]
    have hne : mapSet mat0 now la ≠ [] := by
      intro hnil
      rw [hnil] at hof
      simp at hof
    have hlt := length_filter_ne_lt (mapSet mat0 now la) _ (minKey_is_key _ hne)
    have hle := length_mapSet_le mat0 now la
    omega
  · rw [if_neg hof]
    have hle := length_mapSet_le mat0 now la
    omega

/-- A sample dropped by the history step was either overwritten in place
(same timestamp as the new sample) or evicted as the oldest: its timestamp
is at most every timestamp in the history. -/
theorem matrixStep_evicts_oldest (mat0 : List (ℕ × ℚ)) (now : ℕ) (la : ℚ)
    (p : ℕ × ℚ) (hp : p ∈ mat0)
    (hout : p ∉ (if 100 < (mapSet mat0 now la).length
      then (mapSet mat0 now la).filter fun q => q.1 ≠ minKey (mapSet mat0 now la)
      else mapSet mat0 now la)) :
    p.1 = now ∨ ∀ q ∈ mat0, p.1 ≤ q.1 := by
  by_cases hpk : p.1 = now
  · exact Or.inl hpk
  · right
    have hpm : p ∈ mapSet mat0 now la := mem_mapSet_of_ne now la hp hpk
    by_cases hof : 100 < (mapSet mat0 now la).length
    · rw [if_pos hof] at hout
      have hmin : p.1 = minKey (mapSet mat0 now la) := by
        by_contra hne
        exact hout (List.mem_filter.mpr ⟨hpm, by simpa using hne⟩)
      intro q hq
      obtain ⟨q2, hq2, hq2eq⟩ : ∃ q2 ∈ mapSet mat0 now la, q2.1 = q.1 := by
        by_cases hqk : q.1 = now
        · exact ⟨(now, la), mem_mapSet_self mat0 now la, hqk.symm⟩
        · exact ⟨q, mem_mapSet_of_ne now la hq hqk, rfl⟩
      rw [hmin, ← hq2eq]
      exact minKey_le _ q2 hq2
    · rw [if_neg hof] at hout
      exact absurd hpm hout

/-- C8: after each alignment cycle appends its sample, the rolling history
holds at most 100 samples, and a pre-existing sample that disappeared was
either replaced in place (its timestamp collides with the new sample's) or
was the one with the oldest timestamp. -/
theorem alignment_history_capped (st : OrchState) (manifest : String → Option ℚ)
    (now : ℕ) (h : st.alignmentMatrix.length ≤ 100) :
    (calculateKypriaAlignment st manifest now).alignmentMatrix.length ≤ 100 ∧
    ∀ p ∈ st.alignmentMatrix,
      p ∉ (calculateKypriaAlignment st manifest now).alignmentMatrix →
        p.1 = now ∨ ∀ q ∈ st.alignmentMatrix, p.1 ≤ q.1 :=
  ⟨matrixStep_length st.alignmentMatrix now _ h,
    fun p hp hout => matrixStep_evicts_oldest st.alignmentMatrix now _ p hp hout⟩

/-- C8 witness: the fresh orchestrator's empty history. -/
theorem alignment_history_capped_witness :
    (initialOrchestrator 0).alignmentMatrix.length ≤ 100 ∧
    ((calculateKypriaAlignment (initialOrchestrator 0) (fun _ => none) 5).alignmentMatrix.length
        ≤ 100 ∧
      ∀ p ∈ (initialOrchestrator 0).alignmentMatrix,
        p ∉ (calculateKypriaAlignment (initialOrchestrator 0) (fun _ => none) 5).alignmentMatrix →
          p.1 = 5 ∨ ∀ q ∈ (initialOrchestrator 0).alignmentMatrix, p.1 ≤ q.1) :=
  ⟨by decide,
    alignment_history_capped (initialOrchestrator 0) (fun _ => none) 5 (by decide)⟩

/-! ## C4 — echo capacity -/

/-- The arguments of one `createEcho` call. -/
structure CreateCall where
  eventType : String
  data : String
  echoId : String
  now : ℕ
deriving DecidableEq

/-- A sequence of `createEcho` calls, threading the state. -/
def runCreates (s : EchoBotState) : List CreateCall → EchoBotState
  | [] => s
  | c :: rest => runCreates (createEcho s c.eventType c.data c.echoId c.now).state rest

theorem createEcho_maxEchoes (s : EchoBotState) (t d i : String) (n : ℕ) :
    (createEcho s t d i n).state.maxEchoes = s.maxEchoes := by
  unfold createEcho
  split <;> rfl

theorem createEcho_activeEchoes (s : EchoBotState) (t d i : String) (n : ℕ) :
    (createEcho s t d i n).state.activeEchoes
      = if s.maxEchoes ≤ s.activeEchoes then s.activeEchoes else s.activeEchoes + 1 := by
  unfold createEcho
  split <;> simp_all

theorem createEcho_rejected (s : EchoBotState) (t d i : String) (n : ℕ)
    (h : s.maxEchoes ≤ s.activeEchoes) :
    createEcho s t d i n
      = { returned := none, state := s, harmonicsGenerated := false } := by
  unfold createEcho
  rw [if_pos h]

/-- Counting through a call sequence: starting at or below capacity 10,
the active count after the sequence is the start count plus the number of
calls, saturated at 10. -/
theorem runCreates_count (calls : List CreateCall) :
    ∀ s : EchoBotState, s.maxEchoes = 10 → s.activeEchoes ≤ 10 →
      (runCreates s calls).maxEchoes = 10 ∧
      (runCreates s calls).activeEchoes = min (s.activeEchoes + (calls.length : ℤ)) 10 := by
  induction calls with
  | nil =>
    intro s hm hle
    refine ⟨hm, ?_⟩
    show s.activeEchoes = min (s.activeEchoes + (([] : List CreateCall).length : ℤ)) 10
    simp only [List.length_nil, Nat.cast_zero, add_zero]
    omega
  | cons c rest ih =>
    intro s hm hle
    have hmax := createEcho_maxEchoes s c.eventType c.data c.echoId c.now
    have hact := createEcho_activeEchoes s c.eventType c.data c.echoId c.now
    rw [hm] at hact
    have hle2 : (createEcho s c.eventType c.data c.echoId c.now).state.activeEchoes ≤ 10 := by
      rw [hact]
      split <;> omega
    have hrec := ih (createEcho s c.eventType c.data c.echoId c.now).state
      (by rw [hmax, hm]) hle2
    refine ⟨hrec.1, ?_⟩
    have hrun : runCreates s (c :: rest)
        = runCreates (createEcho s c.eventType c.data c.echoId c.now).state rest := rfl
    rw [hrun, hrec.2, hact, List.length_cons]
    by_cases h10 : (10 : ℤ) ≤ s.activeEchoes
    · rw [if_pos h10]
      push_cast
      omega
    · rw [if_neg h10]
      push_cast
      omega

/-- C4: `createEcho` at capacity (active count at or above `maxEchoes`,
default 10) is rejected — it returns `null` and changes nothing; any
sequence of calls starting within capacity keeps the active count at most
10; and the 11th call of a sequence started empty is rejected. -/
theorem echo_capacity (s : EchoBotState) (calls : List CreateCall) (c : CreateCall)
    (hmax : s.maxEchoes = 10) (hle : s.activeEchoes ≤ 10) :
    (10 ≤ s.activeEchoes →
      (createEcho s c.eventType c.data c.echoId c.now).returned = none ∧
      (createEcho s c.eventType c.data c.echoId c.now).state = s) ∧
    (runCreates s calls).activeEchoes ≤ 10 ∧
    (s.activeEchoes = 0 → calls.length = 10 →
      (createEcho (runCreates s calls) c.eventType c.data c.echoId c.now).returned
        = none) := by
  have hrc := runCreates_count calls s hmax hle
  refine ⟨?_, ?_, ?_⟩
  · intro h10
    rw [createEcho_rejected s c.eventType c.data c.echoId c.now (by omega)]
    exact ⟨rfl, rfl⟩
  · rw [hrc.2]
    omega
  · intro h0 hlen
    have hfull : (runCreates s calls).maxEchoes ≤ (runCreates s calls).activeEchoes := by
      rw [hrc.1, hrc.2, h0, hlen]
      norm_num
    rw [createEcho_rejected (runCreates s calls) c.eventType c.data c.echoId c.now hfull]

/-- Ten distinct `createEcho` calls inside one decay window. -/
def tenCalls : List CreateCall :=
  [⟨"shrine:ping", "d", "e1", 1⟩, ⟨"shrine:ping", "d", "e2", 2⟩,
   ⟨"shrine:ping", "d", "e3", 3⟩, ⟨"shrine:ping", "d", "e4", 4⟩,
   ⟨"shrine:ping", "d", "e5", 5⟩, ⟨"shrine:ping", "d", "e6", 6⟩,
   ⟨"shrine:ping", "d", "e7", 7⟩, ⟨"shrine:ping", "d", "e8", 8⟩,
   ⟨"shrine:ping", "d", "e9", 9⟩, ⟨"shrine:ping", "d", "e10", 10⟩]

/-- C4 witness: a fresh EchoBot, ten calls, then an eleventh. -/
theorem echo_capacity_witness :
    initialEchoBot.maxEchoes = 10 ∧ initialEchoBot.activeEchoes ≤ 10 ∧
    ((10 ≤ initialEchoBot.activeEchoes →
        (createEcho initialEchoBot "badge:emission" "d" "e11" 11).returned = none ∧
        (createEcho initialEchoBot "badge:emission" "d" "e11" 11).state
          = initialEchoBot) ∧
      (runCreates initialEchoBot tenCalls).activeEchoes ≤ 10 ∧
      (initialEchoBot.activeEchoes = 0 → tenCalls.length = 10 →
        (createEcho (runCreates initialEchoBot tenCalls) "badge:emission" "d" "e11"
            11).returned = none)) :=
  ⟨rfl, by decide,
    echo_capacity initialEchoBot tenCalls ⟨"badge:emission", "d", "e11", 11⟩
      rfl (by decide)⟩

/-! ## C5 — the decay profile of an echo -/

/-- The echo `createEcho` builds for a `relic:deadwood` event
(base amplitude 0.7, decay duration 5000 ms). -/
def deadwoodEcho (data echoId : String) (c : ℕ) : Echo :=
  { id := echoId, type := "relic:deadwood", data := data,
    pattern := { frequency := "low", amplitude := 7/10, decay := 5000,
                 harmonics := ["audit", "investigation", "vigilance"] },
    created := c, expires := c + 5000, amplitude := 7/10, resonating := true }

set_option maxRecDepth 8192 in
/-- C5: each decay tick sets a live echo's amplitude to
`base * (1 − age / decayDuration)` and marks it non-resonating once that
value is at most 0.1; for a `relic:deadwood` echo (base 0.7, decay
5000 ms) created at `c`, the tick at `c + 2500` leaves amplitude exactly
0.35, and any cleanup sweep at or after `c + 5000` removes the echo. -/
theorem echo_decay_profile (s : EchoBotState) (data echoId : String) (c t : ℕ)
    (e : Echo) (now2 : ℕ)
    (hcap : s.activeEchoes < s.maxEchoes)
    (hfresh : ∀ p ∈ s.echoChambers, p.1 ≠ echoId)
    (ht : c + 5000 ≤ t)
    (hres : e.resonating = true) (hlive : now2 < e.expires) :
    ((updateEcho now2 e).amplitude
        = e.pattern.amplitude * (1 - ((now2 - e.created : ℕ) : ℚ) / (e.pattern.decay : ℚ)) ∧
      ((updateEcho now2 e).amplitude ≤ 1/10 → (updateEcho now2 e).resonating = false)) ∧
    (mapGet (updateEchoResonance (createEcho s "relic:deadwood" data echoId c).state
        (c + 2500)).echoChambers echoId).map Echo.amplitude = some (7/20) ∧
    mapGet (cleanupExpiredEchoes (updateEchoResonance
        (createEcho s "relic:deadwood" data echoId c).state (c + 2500)) t).echoChambers
      echoId = none := by
  have hng : ¬ s.maxEchoes ≤ s.activeEchoes := not_le.mpr hcap
  have hstate : (createEcho s "relic:deadwood" data echoId c).state.echoChambers
      = mapSet s.echoChambers echoId (deadwoodEcho data echoId c) := by
    unfold createEcho
    rw [if_neg hng]
    rfl
  have hget1 : mapGet (createEcho s "relic:deadwood" data echoId c).state.echoChambers
      echoId = some (deadwoodEcho data echoId c) := by
    rw [hstate]
    exact mapGet_mapSet_self _ _ _
  have hget2 : mapGet (updateEchoResonance
        (createEcho s "relic:deadwood" data echoId c).state (c + 2500)).echoChambers echoId
      = some (updateEcho (c + 2500) (deadwoodEcho data echoId c)) := by
    show mapGet ((createEcho s "relic:deadwood" data echoId c).state.echoChambers.map
        fun p => (p.1, updateEcho (c + 2500) p.2)) echoId = _
    rw [mapGet_map_value, hget1]
    rfl
  have harith : c + 2500 - c = 2500 := by omega
  have hampA := updateEcho_amplitude_of_live e now2 hres hlive
  have hresA := updateEcho_resonating_of_live e now2 hres hlive
  refine ⟨⟨hampA, ?_⟩, ?_, ?_⟩
  · intro hlow
    rw [hampA] at hlow
    rw [hresA, if_pos hlow]
  · rw [hget2,
      updateEcho_of_live (deadwoodEcho data echoId c) (c + 2500) rfl (by simp [deadwoodEcho])]
    show some _ = some ((7 : ℚ)/20)
    norm_num [deadwoodEcho, harith]
  · show mapGet ((updateEchoResonance (createEcho s "relic:deadwood" data echoId c).state
        (c + 2500)).echoChambers.filter fun p => !echoExpired t p.2) echoId = none
    apply mapGet_eq_none_of_forall
    intro p hpf
    obtain ⟨pk, pe⟩ := p
    have hpmem := (List.mem_filter.mp hpf).1
    have hkeep : (!echoExpired t pe) = true := (List.mem_filter.mp hpf).2
    have hchambers : (updateEchoResonance
          (createEcho s "relic:deadwood" data echoId c).state (c + 2500)).echoChambers
        = (s.echoChambers.map fun p => (p.1, updateEcho (c + 2500) p.2))
          ++ [(echoId, updateEcho (c + 2500) (deadwoodEcho data echoId c))] := by
      show (createEcho s "relic:deadwood" data echoId c).state.echoChambers.map
          (fun p => (p.1, updateEcho (c + 2500) p.2)) = _
      rw [hstate, mapSet_of_fresh _ hfresh, List.map_append]
      rfl
    rw [hchambers] at hpmem
    show pk ≠ echoId
    rcases List.mem_append.mp hpmem with hleft | hright
    · obtain ⟨q, hq, heq⟩ := List.mem_map.mp hleft
      have hk : q.1 = pk := congrArg Prod.fst heq
      rw [← hk]
      exact hfresh q hq
    · have he : pe = updateEcho (c + 2500) (deadwoodEcho data echoId c) :=
        congrArg Prod.snd (List.mem_singleton.mp hright)
      rw [he] at hkeep
      exfalso
      have hexp5 : (updateEcho (c + 2500) (deadwoodEcho data echoId c)).expires
          = c + 5000 := by
        rw [updateEcho_expires]
        rfl
      have hexpired : (!echoExpired t (updateEcho (c + 2500) (deadwoodEcho data echoId c)))
          = false := by
        unfold echoExpired
        rw [hexp5, decide_eq_true ht, Bool.true_or]
        rfl
      exact absurd (hkeep.symm.trans hexpired) (by decide)

/-- C5 witness: the deadwood echo created at time 0 on a fresh EchoBot,
ticked at 2500 and swept at 5000. -/
theorem echo_decay_profile_witness :
    initialEchoBot.activeEchoes < initialEchoBot.maxEchoes ∧
    (∀ p ∈ initialEchoBot.echoChambers, p.1 ≠ "e1") ∧
    (0 : ℕ) + 5000 ≤ 5000 ∧
    demoEcho.resonating = true ∧ (2500 : ℕ) < demoEcho.expires ∧
    (((updateEcho 2500 demoEcho).amplitude
        = demoEcho.pattern.amplitude
          * (1 - ((2500 - demoEcho.created : ℕ) : ℚ) / (demoEcho.pattern.decay : ℚ)) ∧
      ((updateEcho 2500 demoEcho).amplitude ≤ 1/10 →
        (updateEcho 2500 demoEcho).resonating = false)) ∧
    (mapGet (updateEchoResonance (createEcho initialEchoBot "relic:deadwood" "d" "e1"
        0).state (0 + 2500)).echoChambers "e1").map Echo.amplitude = some (7/20) ∧
    mapGet (cleanupExpiredEchoes (updateEchoResonance
        (createEcho initialEchoBot "relic:deadwood" "d" "e1" 0).state (0 + 2500))
      5000).echoChambers "e1" = none) :=
  ⟨by decide, by decide, by decide, rfl, by decide,
    echo_decay_profile initialEchoBot "d" "e1" 0 5000 demoEcho 2500
      (by decide) (by decide) (by decide) rfl (by decide)⟩

end ForgeBot
